import Mathlib

/-!
Shallow embedding of `prober/prober.go` (cloudprober's prober package):
the probe registry and cancel-handle map, the lifecycle operations
(addProbe, removeProbe, startProbe, StartAllProbes, StopProbe,
StopAllProbes), the jittered scheduler `startProbesWithJitter`, and the
data-distribution loop inside `Start`.

Go maps are embedded as association lists `List (String × α)` with
Go-map semantics (assignment replaces, delete removes, lookup returns
an option).  A `context.CancelFunc` is embedded as a token (`Nat`)
allocated freshly on each start; invoking a cancel function appends its
token to an `invoked` list.  External collaborators (regexp compilation,
options.BuildProbeOptions, probes.CreateProbe) are parameters gathered
in an `Oracles` structure.  `time.Duration` is an `Int` counting
nanoseconds, with Go's truncated integer division (`Int.tdiv`).
-/

namespace Prober

/-- Go map lookup `m[k]` on an association list: the first binding wins
(association lists built only through `setKey`/`eraseKey` keep keys unique). -/
def lookupKey {α : Type} (k : String) : List (String × α) → Option α
  | [] => none
  | (k', v) :: rest => if k = k' then some v else lookupKey k rest

/-- Go map assignment `m[k] = v`: replace the binding if the key is
present, append it otherwise. -/
def setKey {α : Type} (k : String) (v : α) : List (String × α) → List (String × α)
  | [] => [(k, v)]
  | (k', v') :: rest => if k' = k then (k, v) :: rest else (k', v') :: setKey k v rest

/-- Go map deletion `delete(m, k)`. -/
def eraseKey {α : Type} (k : String) : List (String × α) → List (String × α)
  | [] => []
  | (k', v) :: rest => if k' = k then eraseKey k rest else (k', v) :: eraseKey k rest

/-- The grpc status codes used by prober.go (`codes.AlreadyExists`,
`codes.NotFound`, `codes.Unknown`) plus `codes.InvalidArgument` from the
spec's error taxonomy. -/
inductive Code where
  | alreadyExists
  | notFound
  | invalidArgument
  | unknown
  deriving DecidableEq, Repr

/-- An error returned by the registration path: either an error built with
`status.Errorf(code, msg)`, or a raw (non-status) Go error, such as the
`regexp.Compile` error that `addProbe` returns unwrapped. -/
inductive ProberError where
  | statusError (c : Code) (msg : String)
  | rawError (msg : String)
  deriving DecidableEq, Repr

/-- The grpc status code attached to an error, following
`status.FromError`: an error not built through the status package carries
`codes.Unknown`. -/
def ProberError.code : ProberError → Code
  | .statusError c _ => c
  | .rawError _ => .unknown

/-- `probes.ProbeInfo` restricted to the fields prober.go reads:
`Name` and `Options.Interval` (nanoseconds, as Go's `time.Duration`). -/
structure ProbeInfo where
  name : String
  interval : Int
  deriving DecidableEq, Repr

/-- A probe definition (`probes_configpb.ProbeDef`) restricted to the
fields prober.go reads: `GetName()` and `GetRunOn()` (the
host-restriction pattern; empty string means no restriction). -/
structure ProbeDef where
  name : String
  runOn : String
  deriving DecidableEq, Repr

/-- External collaborators of `addProbe`:
`compile` is `regexp.Compile` (`none` = the pattern fails to compile,
`some m` = a compiled matcher `m` tested against the hostname);
`buildOpts` is `options.BuildProbeOptions` (its result reduced to the
interval the prober later reads); `createProbe` is `probes.CreateProbe`. -/
structure Oracles where
  compile : String → Option (String → Bool)
  buildOpts : ProbeDef → Except String Int
  createProbe : ProbeDef → Int → Except String ProbeInfo

/-- The prober's mutable state: the probe registry `pr.Probes`, the
cancel-handle map `pr.probeCancelFunc` (cancel functions as tokens),
the next fresh token, and the list of tokens whose cancel function has
been invoked. -/
structure ProberState where
  probes : List (String × ProbeInfo)
  cancels : List (String × Nat)
  nextToken : Nat
  invoked : List Nat
  deriving DecidableEq, Repr

/-- The state after `Init` builds the empty maps
(`pr.Probes = make(...)`, `pr.probeCancelFunc = make(...)`). -/
def initState : ProberState :=
  { probes := [], cancels := [], nextToken := 0, invoked := [] }

/-- `runOnThisHost(runOn, hostname)`: empty pattern runs everywhere;
a pattern that fails to compile returns the compile error unwrapped
(embedded as `rawError` carrying the pattern); otherwise match the
hostname. -/
def runOnThisHost (compile : String → Option (String → Bool))
    (runOn hostname : String) : Except ProberError Bool :=
  if runOn = "" then .ok true
  else
    match compile runOn with
    | none => .error (.rawError runOn)
    | some m => .ok (m hostname)

/-- `(*Prober).addProbe(p)`: host-eligibility check first (its error
returned raw), success as a no-op when the probe should not run here,
then the duplicate-name check (`codes.AlreadyExists`), then option
building and probe construction (both failing with `codes.Unknown`),
then the registry insertion. -/
def addProbe (o : Oracles) (hostname : String) (p : ProbeDef) (st : ProberState) :
    Except ProberError ProberState :=
  match runOnThisHost o.compile p.runOn hostname with
  | .error e => .error e
  | .ok false => .ok st
  | .ok true =>
    match lookupKey p.name st.probes with
    | some _ => .error (.statusError .alreadyExists ("probe " ++ p.name ++ " is already defined"))
    | none =>
      match o.buildOpts p with
      | .error msg => .error (.statusError .unknown msg)
      | .ok opts =>
        match o.createProbe p opts with
        | .error msg => .error (.statusError .unknown msg)
        | .ok pinfo => .ok { st with probes := setKey p.name pinfo st.probes }

/-- The prober state after a call to `addProbe`: on error the state is
untouched (the method returns before any mutation). -/
def addProbeState (o : Oracles) (hostname : String) (p : ProbeDef) (st : ProberState) :
    ProberState :=
  match addProbe o hostname p st with
  | .ok st' => st'
  | .error _ => st

/-- Log events emitted by `_stopProbeWithNoLock`: the `Criticalf` line for
a non-existent probe and the `Infof` line for a not-started probe. -/
inductive LogEvent where
  | criticalNonexistent (name : String)
  | infoNotStarted (name : String)
  deriving DecidableEq, Repr

/-- `(*Prober)._startProbeWithNoLock(ctx, name)`: allocate a fresh cancel
function (token) with `context.WithCancel` and store it in the
cancel-handle map, unconditionally — before and regardless of whether
`name` is in the registry.  (The goroutine `go pr.Probes[name].Start(...)`
it also launches is outside this state model.) -/
def startProbeWithNoLock (st : ProberState) (n : String) : ProberState :=
  { st with
    cancels := setKey n st.nextToken st.cancels
    nextToken := st.nextToken + 1 }

/-- `(*Prober).StartProbe(name)` = `startProbe` with the stored start
context: take the lock and run `_startProbeWithNoLock`. -/
def StartProbe (st : ProberState) (n : String) : ProberState :=
  startProbeWithNoLock st n

/-- Starting a list of probe names in order (the loop body of
`StartAllProbes`). -/
def startList : List String → ProberState → ProberState
  | [], st => st
  | n :: rest, st => startList rest (startProbeWithNoLock st n)

/-- `(*Prober).StartAllProbes()`: `_startProbeWithNoLock` for every name
in the registry. -/
def StartAllProbes (st : ProberState) : ProberState :=
  startList (st.probes.map Prod.fst) st

/-- `(*Prober)._stopProbeWithNoLock(name)`: log critically when the probe
is not in the registry; then, if no cancel function is stored, log an
info no-op, else invoke the cancel function and delete its map entry. -/
def stopProbeWithNoLock (st : ProberState) (n : String) : ProberState × List LogEvent :=
  let critLogs : List LogEvent :=
    if (lookupKey n st.probes).isNone then [.criticalNonexistent n] else []
  match lookupKey n st.cancels with
  | none => (st, critLogs ++ [.infoNotStarted n])
  | some t =>
      ({ st with cancels := eraseKey n st.cancels, invoked := st.invoked ++ [t] }, critLogs)

/-- `(*Prober).StopProbe(name)`: take the lock and run
`_stopProbeWithNoLock`. -/
def StopProbe (st : ProberState) (n : String) : ProberState × List LogEvent :=
  stopProbeWithNoLock st n

/-- Stopping a list of probe names in order, accumulating the logs
(the loop body of `StopAllProbes`). -/
def stopList : List String → ProberState → ProberState × List LogEvent
  | [], st => (st, [])
  | n :: rest, st =>
    let r := stopProbeWithNoLock st n
    let r2 := stopList rest r.1
    (r2.1, r.2 ++ r2.2)

/-- `(*Prober).StopAllProbes()`: `_stopProbeWithNoLock` for every name in
the registry. -/
def StopAllProbes (st : ProberState) : ProberState × List LogEvent :=
  stopList (st.probes.map Prod.fst) st

/-- `(*Prober).removeProbe(name)`: `codes.NotFound` for an unregistered
name, otherwise stop the probe (idempotently) and delete its registry
entry. -/
def removeProbe (st : ProberState) (n : String) : Except ProberError ProberState :=
  match lookupKey n st.probes with
  | none => .error (.statusError .notFound ("removeProbe called for non-existent probe: " ++ n))
  | some _ =>
    let st' := (stopProbeWithNoLock st n).1
    .ok { st' with probes := eraseKey n st'.probes }

/-- `rand.Int63n(n)`: a uniform draw in `[0, n)`; it panics when
`n ≤ 0` (embedded as `none`).  `draw` stands for the generator's raw
output; `emod` places it in `[0, n)`. -/
def randInt63n (draw n : Int) : Option Int :=
  if n ≤ 0 then none else some (draw.emod n)

/-- The bound `int64(interval.Seconds() * 1000)` passed to `rand.Int63n`
in `startProbesWithJitter`: the interval in whole milliseconds (the
source computes it through a float64; both truncate, and they agree
exactly at 0 and at whole-millisecond intervals). -/
def jitterBoundMsec (interval : Int) : Int :=
  interval.tdiv 1000000

/-- The interval bucket for interval `i`: the registered probes whose
configured interval equals `i` exactly (`intervalBuckets` in
`startProbesWithJitter` appends each probe to the slice keyed by
`p.Options.Interval`). -/
def bucketOf (ps : List ProbeInfo) (i : Int) : List ProbeInfo :=
  ps.filter (fun p => p.interval = i)

/-- The number of distinct interval buckets `startProbesWithJitter`
builds for a set of probes. -/
def bucketCount (ps : List ProbeInfo) : Nat :=
  ((ps.map (fun p => p.interval)).dedup).length

/-- `interProbeDelay := interval / time.Duration(len(probeInfos))`:
Go's truncated integer division on the nanosecond count. -/
def interProbeDelay (interval : Int) (count : Nat) : Int :=
  interval.tdiv (count : Int)

/-- The start offsets within one bucket, relative to the bucket's random
initial delay: the j-th probe of the bucket starts after
`j * interProbeDelay` (the loop starts a probe, then sleeps
`interProbeDelay`). -/
def inBucketOffsets (interval : Int) (names : List String) : List (String × Int) :=
  (List.range names.length).zip names |>.map
    (fun e => (e.2, (e.1 : Int) * interProbeDelay interval names.length))

/-- One bucket's goroutine in `startProbesWithJitter`: draw the random
initial delay with `rand.Int63n(int64(interval.Seconds()*1000))` —
`none` models the panic on a non-positive bound — then start the
bucket's probes at `delay + j * interProbeDelay`.  Offsets are in
nanoseconds (`randomDelayMsec` is multiplied by `time.Millisecond`). -/
def bucketStartOffsets (draw : Int) (interval : Int) (names : List String) :
    Option (List (String × Int)) :=
  match randInt63n draw (jitterBoundMsec interval) with
  | none => none
  | some dMsec =>
    some ((inBucketOffsets interval names).map (fun e => (e.1, dMsec * 1000000 + e.2)))

/-- An `metrics.EventMetrics` value as the pipeline sees it: its
timestamp and its rendered textual form `em.String()`. -/
structure EventMetrics where
  timestamp : Int
  rendered : String
  deriving DecidableEq, Repr

/-- The rendered size `len(s)` of an event: the UTF-8 byte length of
`em.String()`. -/
def renderedSize (em : EventMetrics) : Nat :=
  em.rendered.utf8ByteSize

/-- One observable step of the distribution loop in `Start`: a
`glog.Warningf` drop of an oversized entry, or one `surfacer.Write`
call.  The loop has no way to report anything back to the producing
probe: no constructor of this type addresses the producer. -/
inductive PipelineAction where
  | warnOversized (timestamp : Int) (size : Nat)
  | write (surfacer : String) (em : EventMetrics)
  deriving DecidableEq, Repr

/-- One iteration of the for-loop in `(*Prober).Start`'s distribution
goroutine, for one event read from `pr.dataChan`: if the rendered form
exceeds `logger.MaxLogEntrySize` (a constant of the external logger
package, kept as the parameter `maxLogEntrySize`), warn once and
`continue`; otherwise call `Write` on every registered surfacer in
order. -/
def dataLoopStep (maxLogEntrySize : Nat) (surfacers : List String)
    (em : EventMetrics) : List PipelineAction :=
  if renderedSize em > maxLogEntrySize then
    [.warnOversized em.timestamp (renderedSize em)]
  else
    surfacers.map (fun s => .write s em)

/-- The number of `Write` calls to surfacer `s` in a list of pipeline
actions. -/
def writesTo (s : String) (em : EventMetrics) (acts : List PipelineAction) : Nat :=
  (acts.filter (fun a => a = .write s em)).length

/-- The number of `Write` calls (to any surfacer) in a list of pipeline
actions. -/
def writeCount (acts : List PipelineAction) : Nat :=
  (acts.filter (fun a => match a with | .write _ _ => true | _ => false)).length

/-- The number of oversized-entry warnings in a list of pipeline
actions. -/
def warnCount (acts : List PipelineAction) : Nat :=
  (acts.filter (fun a => match a with | .warnOversized _ _ => true | _ => false)).length

/-- The public operations of the lifecycle controller. -/
inductive Op where
  | add (p : ProbeDef)
  | remove (n : String)
  | start (n : String)
  | startAll
  | stop (n : String)
  | stopAll
  deriving DecidableEq, Repr

/-- The state after one public operation (callers keep the old state when
`AddProbe`/`RemoveProbe` return an error; `Start*`/`Stop*` return no
error at all). -/
def applyOp (o : Oracles) (hostname : String) (st : ProberState) : Op → ProberState
  | .add p => addProbeState o hostname p st
  | .remove n =>
    match removeProbe st n with
    | .ok st' => st'
    | .error _ => st
  | .start n => StartProbe st n
  | .startAll => StartAllProbes st
  | .stop n => (StopProbe st n).1
  | .stopAll => (StopAllProbes st).1

/-- States reachable from the freshly initialized prober through the
public operations. -/
inductive Reachable (o : Oracles) (hostname : String) : ProberState → Prop where
  | init : Reachable o hostname initState
  | step : ∀ st op, Reachable o hostname st → Reachable o hostname (applyOp o hostname st op)

/-- The registry/cancel-map consistency invariant of the spec: every
probe name present in the cancel-handle map is also registered. -/
def Invariant (st : ProberState) : Prop :=
  ∀ k, (lookupKey k st.cancels).isSome = true → (lookupKey k st.probes).isSome = true

/-- An operation that only ever starts registered probes: `StartProbe`
must be given a registered name; every other operation is unrestricted. -/
def GoodOp (st : ProberState) : Op → Prop
  | .start n => (lookupKey n st.probes).isSome = true
  | _ => True

/-- States reachable from the freshly initialized prober when
`StartProbe` is only ever called with registered names. -/
inductive ReachableGood (o : Oracles) (hostname : String) : ProberState → Prop where
  | init : ReachableGood o hostname initState
  | step : ∀ st op, ReachableGood o hostname st → GoodOp st op →
      ReachableGood o hostname (applyOp o hostname st op)

theorem lookupKey_setKey {α : Type} (k n : String) (v : α) (l : List (String × α)) :
    lookupKey k (setKey n v l) = if k = n then some v else lookupKey k l := by
  induction l with
  | nil => simp [setKey, lookupKey]
  | cons hd tl ih =>
    obtain ⟨k', v'⟩ := hd
    simp only [setKey]
    by_cases h1 : k' = n
    · subst h1
      by_cases h2 : k = k' <;> simp [lookupKey, h2]
    · by_cases h2 : k = k' <;> by_cases h3 : k = n <;>
        simp_all [lookupKey]

theorem lookupKey_eraseKey {α : Type} (k n : String) (l : List (String × α)) :
    lookupKey k (eraseKey n l) = if k = n then none else lookupKey k l := by
  induction l with
  | nil => simp [eraseKey, lookupKey]
  | cons hd tl ih =>
    obtain ⟨k', v'⟩ := hd
    simp only [eraseKey]
    by_cases h1 : k' = n
    · subst h1
      by_cases h2 : k = k' <;> simp_all [lookupKey]
    · by_cases h2 : k = k' <;> by_cases h3 : k = n <;>
        simp_all [lookupKey]

theorem lookupKey_isSome_of_mem {α : Type} (l : List (String × α)) (n : String)
    (h : n ∈ l.map Prod.fst) : (lookupKey n l).isSome = true := by
  induction l with
  | nil => simp at h
  | cons hd tl ih =>
    obtain ⟨k', v'⟩ := hd
    simp only [lookupKey]
    by_cases h2 : n = k'
    · simp [h2]
    · simp only [List.map, List.mem_cons] at h
      rcases h with h | h
      · exact absurd h h2
      · simp [h2, ih h]

theorem start_probes (st : ProberState) (n : String) :
    (startProbeWithNoLock st n).probes = st.probes := rfl

theorem start_invoked (st : ProberState) (n : String) :
    (startProbeWithNoLock st n).invoked = st.invoked := rfl

theorem start_cancels (st : ProberState) (n k : String) :
    lookupKey k (startProbeWithNoLock st n).cancels =
      if k = n then some st.nextToken else lookupKey k st.cancels :=
  lookupKey_setKey k n st.nextToken st.cancels

theorem stop_probes (st : ProberState) (n : String) :
    (stopProbeWithNoLock st n).1.probes = st.probes := by
  simp only [stopProbeWithNoLock]
  split <;> rfl

theorem stop_cancels (st : ProberState) (n k : String) :
    lookupKey k (stopProbeWithNoLock st n).1.cancels =
      if k = n then none else lookupKey k st.cancels := by
  simp only [stopProbeWithNoLock]
  split
  next h =>
    by_cases hk : k = n
    · subst hk; simp [h]
    · simp [hk]
  next t h =>
    exact lookupKey_eraseKey k n st.cancels

theorem startList_probes (ns : List String) (st : ProberState) :
    (startList ns st).probes = st.probes := by
  induction ns generalizing st with
  | nil => rfl
  | cons n rest ih =>
    simp only [startList]
    rw [ih, start_probes]

theorem startList_invariant (ns : List String) (st : ProberState)
    (hinv : Invariant st) (hmem : ∀ n ∈ ns, (lookupKey n st.probes).isSome = true) :
    Invariant (startList ns st) := by
  induction ns generalizing st with
  | nil => exact hinv
  | cons n rest ih =>
    simp only [startList]
    apply ih
    · intro k hk
      rw [start_cancels] at hk
      rw [start_probes]
      by_cases h : k = n
      · subst h; exact hmem k (by simp)
      · rw [if_neg h] at hk
        exact hinv k hk
    · intro m hm
      rw [start_probes]
      exact hmem m (by simp [hm])

theorem stopList_probes (ns : List String) (st : ProberState) :
    (stopList ns st).1.probes = st.probes := by
  induction ns generalizing st with
  | nil => rfl
  | cons n rest ih =>
    simp only [stopList]
    rw [ih, stop_probes]

theorem stopList_cancels (ns : List String) (st : ProberState) (k : String) :
    lookupKey k (stopList ns st).1.cancels =
      if k ∈ ns then none else lookupKey k st.cancels := by
  induction ns generalizing st with
  | nil => simp [stopList]
  | cons n rest ih =>
    simp only [stopList]
    rw [ih, stop_cancels]
    by_cases h1 : k ∈ rest
    · simp [h1]
    · by_cases h2 : k = n <;> simp [h1, h2, List.mem_cons]

theorem stopList_noop (ns : List String) (st : ProberState)
    (hc : ∀ n ∈ ns, lookupKey n st.cancels = none)
    (hp : ∀ n ∈ ns, (lookupKey n st.probes).isSome = true) :
    stopList ns st = (st, ns.map LogEvent.infoNotStarted) := by
  induction ns with
  | nil => rfl
  | cons n rest ih =>
    have h1 : lookupKey n st.cancels = none := hc n (by simp)
    have h2 : (lookupKey n st.probes).isSome = true := hp n (by simp)
    obtain ⟨v, hv⟩ := Option.isSome_iff_exists.mp h2
    have hstop : stopProbeWithNoLock st n = (st, [LogEvent.infoNotStarted n]) := by
      simp [stopProbeWithNoLock, h1, hv]
    simp only [stopList, hstop]
    rw [ih (fun m hm => hc m (by simp [hm])) (fun m hm => hp m (by simp [hm]))]
    simp

theorem addProbe_ok_char (o : Oracles) (hostname : String) (p : ProbeDef)
    (st st' : ProberState) (h : addProbe o hostname p st = .ok st') :
    st' = st ∨ ∃ pinfo, st' = { st with probes := setKey p.name pinfo st.probes } := by
  unfold addProbe at h
  split at h
  · cases h
  · injection h with h
    exact Or.inl h.symm
  · split at h
    · cases h
    · split at h
      · cases h
      · split at h
        · cases h
        · injection h with h
          exact Or.inr ⟨_, h.symm⟩

theorem addProbeState_char (o : Oracles) (hostname : String) (p : ProbeDef)
    (st : ProberState) :
    addProbeState o hostname p st = st ∨
    ∃ pinfo, addProbeState o hostname p st = { st with probes := setKey p.name pinfo st.probes } := by
  unfold addProbeState
  cases hh : addProbe o hostname p st with
  | error e => exact Or.inl rfl
  | ok st' => simpa using addProbe_ok_char o hostname p st st' hh

theorem invariant_step (o : Oracles) (hostname : String) (st : ProberState) (op : Op)
    (hinv : Invariant st) (hgood : GoodOp st op) : Invariant (applyOp o hostname st op) := by
  cases op with
  | add p =>
    show Invariant (addProbeState o hostname p st)
    rcases addProbeState_char o hostname p st with h | ⟨pinfo, h⟩
    · rw [h]; exact hinv
    · rw [h]
      intro k hk
      show (lookupKey k (setKey p.name pinfo st.probes)).isSome = true
      rw [lookupKey_setKey]
      by_cases hkp : k = p.name
      · simp [hkp]
      · rw [if_neg hkp]
        exact hinv k hk
  | remove n =>
    show Invariant (match removeProbe st n with | .ok st' => st' | .error _ => st)
    cases hr : removeProbe st n with
    | error e => exact hinv
    | ok st' =>
      unfold removeProbe at hr
      split at hr
      · cases hr
      · injection hr with hr
        subst hr
        intro k hk
        show (lookupKey k (eraseKey n (stopProbeWithNoLock st n).1.probes)).isSome = true
        have hk' : (lookupKey k (stopProbeWithNoLock st n).1.cancels).isSome = true := hk
        rw [stop_cancels] at hk'
        by_cases hkn : k = n
        · rw [if_pos hkn] at hk'
          cases hk'
        · rw [if_neg hkn] at hk'
          rw [stop_probes, lookupKey_eraseKey, if_neg hkn]
          exact hinv k hk'
  | start n =>
    intro k hk
    show (lookupKey k (startProbeWithNoLock st n).probes).isSome = true
    have hk' : (lookupKey k (startProbeWithNoLock st n).cancels).isSome = true := hk
    rw [start_cancels] at hk'
    rw [start_probes]
    by_cases hkn : k = n
    · subst hkn; exact hgood
    · rw [if_neg hkn] at hk'
      exact hinv k hk'
  | startAll =>
    show Invariant (startList (st.probes.map Prod.fst) st)
    exact startList_invariant _ st hinv (fun n hn => lookupKey_isSome_of_mem _ n hn)
  | stop n =>
    intro k hk
    show (lookupKey k (stopProbeWithNoLock st n).1.probes).isSome = true
    have hk' : (lookupKey k (stopProbeWithNoLock st n).1.cancels).isSome = true := hk
    rw [stop_cancels] at hk'
    rw [stop_probes]
    by_cases hkn : k = n
    · rw [if_pos hkn] at hk'
      cases hk'
    · rw [if_neg hkn] at hk'
      exact hinv k hk'
  | stopAll =>
    intro k hk
    show (lookupKey k (stopList (st.probes.map Prod.fst) st).1.probes).isSome = true
    have hk' : (lookupKey k (stopList (st.probes.map Prod.fst) st).1.cancels).isSome = true := hk
    rw [stopList_cancels] at hk'
    rw [stopList_probes]
    by_cases hm : k ∈ st.probes.map Prod.fst
    · rw [if_pos hm] at hk'
      cases hk'
    · rw [if_neg hm] at hk'
      exact hinv k hk'

/-- 10s, 30s and 5s as Go `time.Duration` nanosecond counts. -/
def tenSec : Int := 10000000000

def thirtySec : Int := 30000000000

def fiveSec : Int := 5000000000

/-- Concrete external collaborators for evaluation: every pattern fails
to compile (irrelevant for probes with an empty `runOn`), options and
probe construction succeed. -/
def exOracles : Oracles :=
  { compile := fun _ => none
    buildOpts := fun _ => .ok tenSec
    createProbe := fun p i => .ok ⟨p.name, i⟩ }

/-- Concrete external collaborators whose compiled host pattern never
matches the hostname. -/
def noMatchOracles : Oracles :=
  { compile := fun _ => some (fun _ => false)
    buildOpts := fun _ => .ok tenSec
    createProbe := fun p i => .ok ⟨p.name, i⟩ }

/-- The state reached by starting the unregistered probe "x" on a fresh
prober. -/
def stBad : ProberState := applyOp exOracles "h" initState (.start "x")

/-- Claim C1, counterexample: on a freshly initialized prober (empty
registry), `StartProbe "x"` — one public operation, so the resulting
state is reachable — installs a cancel handle under the unregistered
name "x", so the cancel-handle map holds a name the registry does not,
refuting both the reachable-state invariant and the "leaves the
cancel-handle map without an entry" reading of the no-op. -/
theorem claim_C1_counterexample :
    lookupKey "x" stBad.cancels = some 0 ∧
    lookupKey "x" stBad.probes = none ∧
    ¬ (∀ st : ProberState, Reachable exOracles "h" st → Invariant st) := by
  refine ⟨rfl, rfl, fun hAll => ?_⟩
  have hreach : Reachable exOracles "h" stBad :=
    Reachable.step initState (.start "x") Reachable.init
  have h1 := hAll stBad hreach "x" (by decide)
  have h2 : (lookupKey "x" stBad.probes).isSome = false := by decide
  rw [h1] at h2
  cases h2

/-- Claim C1, amended: the registry/cancel-map invariant — every probe
name in the cancel-handle map is registered — holds in every state
reachable through the public operations provided `StartProbe` is only
called with registered names; `StartProbe` with an unregistered name,
however, does not leave the cancel-handle map without an entry: it
installs a fresh cancel handle under that name while the registry stays
without it. -/
theorem claim_C1_amended :
    (∀ (o : Oracles) (hostname : String) (st : ProberState),
        ReachableGood o hostname st → Invariant st) ∧
    (∀ (st : ProberState) (n : String), lookupKey n st.probes = none →
        lookupKey n (startProbeWithNoLock st n).cancels = some st.nextToken ∧
        lookupKey n (startProbeWithNoLock st n).probes = none) := by
  constructor
  · intro o hostname st hreach
    induction hreach with
    | init => intro k hk; cases hk
    | step st op hr hg ih => exact invariant_step o hostname st op ih hg
  · intro st n h
    constructor
    · rw [start_cancels, if_pos rfl]
    · rw [start_probes]; exact h

/-- The states of a concrete good run: add probe "p", then start it. -/
def st1C1 : ProberState := applyOp exOracles "h" initState (.add ⟨"p", ""⟩)

def st2C1 : ProberState := applyOp exOracles "h" st1C1 (.start "p")

/-- Witness for the amended claim C1: after adding probe "p" and
starting it (a good run), the cancel handle held for "p" is matched by
a registry entry for "p"; and on a state without "q", starting "q"
stores the fresh cancel token under "q". -/
theorem claim_C1_amended_witness :
    (lookupKey "p" st2C1.probes).isSome = true ∧
    lookupKey "q" (startProbeWithNoLock initState "q").cancels = some 0 := by
  constructor
  · exact claim_C1_amended.1 exOracles "h" st2C1
      (ReachableGood.step st1C1 (.start "p")
        (ReachableGood.step initState (.add ⟨"p", ""⟩) ReachableGood.init trivial)
        (show (lookupKey "p" st1C1.probes).isSome = true by decide))
      "p" (by decide)
  · exact (claim_C1_amended.2 initState "q" rfl).1

/-- Claim C2: contrary to the claim, the per-bucket scheduling step is
not total for interval = 0 — the code computes the random initial delay
with `rand.Int63n(int64(interval.Seconds() * 1000))`, and `rand.Int63n`
panics on a non-positive bound (embedded as `none`), so for a bucket
whose interval is zero the draw fails and the bucket's probes are never
started, instead of the delay defaulting to zero. -/
theorem claim_C2_bug (draw : Int) :
    jitterBoundMsec 0 = 0 ∧ bucketStartOffsets draw 0 ["probe1"] = none := by
  constructor
  · rfl
  · simp [bucketStartOffsets, randInt63n, jitterBoundMsec]

/-- Claim C3: for a probe definition whose host-restriction pattern
fails to compile, `addProbe` synchronously returns the compile error
(a non-status error, hence carrying grpc code Unknown — one of
already-exists / not-found / invalid-argument / unknown), and the probe
registry is left unchanged. -/
theorem claim_C3 (o : Oracles) (hostname : String) (p : ProbeDef) (st : ProberState)
    (hpat : p.runOn ≠ "") (hcomp : o.compile p.runOn = none) :
    addProbe o hostname p st = .error (.rawError p.runOn) ∧
    (ProberError.rawError p.runOn).code = Code.unknown ∧
    addProbeState o hostname p st = st := by
  have h : runOnThisHost o.compile p.runOn hostname = .error (.rawError p.runOn) := by
    unfold runOnThisHost
    rw [if_neg hpat, hcomp]
  refine ⟨?_, rfl, ?_⟩
  · unfold addProbe; rw [h]
  · unfold addProbeState addProbe; rw [h]

/-- Witness for claim C3: the pattern "(" of probe "w3" fails to compile
under `exOracles`, the returned error carries code Unknown, and the
empty registry stays empty. -/
theorem claim_C3_witness :
    addProbe exOracles "h" ⟨"w3", "("⟩ initState = .error (.rawError "(") ∧
    (ProberError.rawError "(").code = Code.unknown ∧
    addProbeState exOracles "h" ⟨"w3", "("⟩ initState = initState :=
  claim_C3 exOracles "h" ⟨"w3", "("⟩ initState (by decide) rfl

/-- Claim C4: for an eligible probe definition (no host-restriction
pattern) whose name is already registered, `addProbe` fails with an
AlreadyExists status error and the previously registered probe's
registry entry is unchanged. -/
theorem claim_C4 (o : Oracles) (hostname : String) (p : ProbeDef) (st : ProberState)
    (pinfo : ProbeInfo)
    (helig : p.runOn = "") (hdup : lookupKey p.name st.probes = some pinfo) :
    addProbe o hostname p st =
      .error (.statusError .alreadyExists ("probe " ++ p.name ++ " is already defined")) ∧
    (ProberError.statusError Code.alreadyExists
      ("probe " ++ p.name ++ " is already defined")).code = Code.alreadyExists ∧
    addProbeState o hostname p st = st ∧
    lookupKey p.name (addProbeState o hostname p st).probes = some pinfo := by
  have h : runOnThisHost o.compile p.runOn hostname = .ok true := by
    unfold runOnThisHost
    rw [if_pos helig]
  have h1 : addProbe o hostname p st =
      .error (.statusError .alreadyExists ("probe " ++ p.name ++ " is already defined")) := by
    unfold addProbe
    rw [h, hdup]
  have h2 : addProbeState o hostname p st = st := by
    unfold addProbeState
    rw [h1]
  exact ⟨h1, rfl, h2, by rw [h2]; exact hdup⟩

/-- The one-probe registry used by the duplicate-registration
witnesses. -/
def stDup : ProberState :=
  { probes := [("p", ⟨"p", tenSec⟩)], cancels := [], nextToken := 0, invoked := [] }

/-- Witness for claim C4: re-adding the registered, unrestricted probe
"p" fails with AlreadyExists and leaves its registry entry intact. -/
theorem claim_C4_witness :
    addProbe exOracles "h" ⟨"p", ""⟩ stDup =
      .error (.statusError .alreadyExists ("probe " ++ "p" ++ " is already defined")) ∧
    (ProberError.statusError Code.alreadyExists
      ("probe " ++ "p" ++ " is already defined")).code = Code.alreadyExists ∧
    addProbeState exOracles "h" ⟨"p", ""⟩ stDup = stDup ∧
    lookupKey "p" (addProbeState exOracles "h" ⟨"p", ""⟩ stDup).probes =
      some ⟨"p", tenSec⟩ :=
  claim_C4 exOracles "h" ⟨"p", ""⟩ stDup ⟨"p", tenSec⟩ rfl rfl

/-- Claim C10: host-eligibility is evaluated before the duplicate-name
check, so for a definition whose name is already registered but whose
(compiling) host pattern does not match the local hostname, `addProbe`
returns success (`nil`) with the state unchanged instead of
AlreadyExists. -/
theorem claim_C10 (o : Oracles) (hostname : String) (p : ProbeDef) (st : ProberState)
    (pinfo : ProbeInfo) (m : String → Bool)
    (hpat : p.runOn ≠ "") (hcomp : o.compile p.runOn = some m) (hnm : m hostname = false)
    (hdup : lookupKey p.name st.probes = some pinfo) :
    addProbe o hostname p st = .ok st := by
  have h : runOnThisHost o.compile p.runOn hostname = .ok false := by
    unfold runOnThisHost
    rw [if_neg hpat, hcomp]
    simp [hnm]
  unfold addProbe
  rw [h]

/-- Witness for claim C10: re-adding probe "p" with a never-matching
host pattern succeeds as a no-op even though "p" is registered. -/
theorem claim_C10_witness :
    addProbe noMatchOracles "h" ⟨"p", "other-host"⟩ stDup = .ok stDup :=
  claim_C10 noMatchOracles "h" ⟨"p", "other-host"⟩ stDup ⟨"p", tenSec⟩
    (fun _ => false) (by decide) rfl rfl rfl

/-- The probe set of the spec's jitter example: intervals
{10s, 10s, 30s}. -/
def exProbes : List ProbeInfo :=
  [⟨"p1", tenSec⟩, ⟨"p2", tenSec⟩, ⟨"p3", thirtySec⟩]

/-- Claim C5: `startProbesWithJitter` partitions the registered probes
into buckets keyed by their exact configured interval (membership in
the bucket for interval `i` is membership in the probe set plus
`interval = i`, so two probes share a bucket iff their intervals are
equal), successive starts within a bucket are spaced by
`interval / count`; for intervals {10s, 10s, 30s} there are exactly two
buckets, of sizes 2 and 1, and the two 10s probes start 5s apart. -/
theorem claim_C5 :
    (∀ (ps : List ProbeInfo) (i : Int) (p : ProbeInfo),
        p ∈ bucketOf ps i ↔ p ∈ ps ∧ p.interval = i) ∧
    (∀ (ps : List ProbeInfo) (p q : ProbeInfo), p ∈ ps →
        (p ∈ bucketOf ps q.interval ↔ p.interval = q.interval)) ∧
    bucketCount exProbes = 2 ∧
    (bucketOf exProbes tenSec).length = 2 ∧
    (bucketOf exProbes thirtySec).length = 1 ∧
    interProbeDelay tenSec 2 = fiveSec ∧
    inBucketOffsets tenSec ["p1", "p2"] = [("p1", 0), ("p2", fiveSec)] := by
  have hmem : ∀ (ps : List ProbeInfo) (i : Int) (p : ProbeInfo),
      p ∈ bucketOf ps i ↔ p ∈ ps ∧ p.interval = i := by
    intro ps i p
    simp [bucketOf, List.mem_filter]
  refine ⟨hmem, ?_, by decide, by decide, by decide, by decide, by decide⟩
  intro ps p q hp
  rw [hmem]
  simp [hp]

/-- Witness for claim C5: probes "p1" and "p2" of the example share the
bucket keyed by their common 10s interval. -/
theorem claim_C5_witness :
    (⟨"p1", tenSec⟩ : ProbeInfo) ∈
      bucketOf exProbes (ProbeInfo.interval ⟨"p2", tenSec⟩) ↔
    ProbeInfo.interval (⟨"p1", tenSec⟩ : ProbeInfo) =
      ProbeInfo.interval (⟨"p2", tenSec⟩ : ProbeInfo) :=
  claim_C5.2.1 exProbes ⟨"p1", tenSec⟩ ⟨"p2", tenSec⟩ (by decide)

/-- Claim C6: an event whose rendered form is strictly larger than the
maximum log-entry size is delivered to zero surfacers and produces
exactly one warning; the loop returns nothing to the producing probe
(the action type has no producer-facing constructor), so the event is
never surfaced as an error to its producer. -/
theorem claim_C6 (maxLogEntrySize : Nat) (surfacers : List String) (em : EventMetrics)
    (hbig : renderedSize em > maxLogEntrySize) :
    dataLoopStep maxLogEntrySize surfacers em =
      [.warnOversized em.timestamp (renderedSize em)] ∧
    writeCount (dataLoopStep maxLogEntrySize surfacers em) = 0 ∧
    warnCount (dataLoopStep maxLogEntrySize surfacers em) = 1 := by
  have h : dataLoopStep maxLogEntrySize surfacers em =
      [.warnOversized em.timestamp (renderedSize em)] := by
    unfold dataLoopStep
    rw [if_pos hbig]
  refine ⟨h, ?_, ?_⟩ <;> rw [h] <;> rfl

/-- Witness for claim C6: a 4-byte event against a 3-byte limit, with
two registered surfacers, is dropped with one warning and zero writes. -/
theorem claim_C6_witness :
    dataLoopStep 3 ["s1", "s2"] ⟨7, "abcd"⟩ =
      [.warnOversized 7 (renderedSize ⟨7, "abcd"⟩)] ∧
    writeCount (dataLoopStep 3 ["s1", "s2"] ⟨7, "abcd"⟩) = 0 ∧
    warnCount (dataLoopStep 3 ["s1", "s2"] ⟨7, "abcd"⟩) = 1 :=
  claim_C6 3 ["s1", "s2"] ⟨7, "abcd"⟩ (by decide)

theorem writesTo_map (s : String) (em : EventMetrics) (l : List String) :
    writesTo s em (l.map (fun x => PipelineAction.write x em)) = l.count s := by
  induction l with
  | nil => rfl
  | cons x xs ih =>
    simp only [List.map, writesTo, List.filter, List.count_cons] at ih ⊢
    by_cases hx : x = s
    · subst hx
      simp_all [writesTo]
    · have : (PipelineAction.write x em = PipelineAction.write s em) = False := by
        simp [hx]
      simp_all [writesTo, hx]

theorem warnCount_map (em : EventMetrics) (l : List String) :
    warnCount (l.map (fun x => PipelineAction.write x em)) = 0 := by
  induction l with
  | nil => rfl
  | cons x xs ih =>
    simp only [List.map, warnCount, List.filter] at ih ⊢
    exact ih

/-- Claim C7: an event whose rendered form does not exceed the maximum
size is distributed by calling `Write` exactly once on each registered
surfacer — the step's actions are exactly one `write` per surfacer in
registration order, the number of writes to any surfacer `s` equals the
number of times `s` is registered, and no warning is emitted. -/
theorem claim_C7 (maxLogEntrySize : Nat) (surfacers : List String) (em : EventMetrics)
    (hok : ¬ renderedSize em > maxLogEntrySize) :
    dataLoopStep maxLogEntrySize surfacers em =
      surfacers.map (fun s => .write s em) ∧
    (∀ s : String, writesTo s em (dataLoopStep maxLogEntrySize surfacers em) =
      surfacers.count s) ∧
    warnCount (dataLoopStep maxLogEntrySize surfacers em) = 0 := by
  have h : dataLoopStep maxLogEntrySize surfacers em =
      surfacers.map (fun s => .write s em) := by
    unfold dataLoopStep
    rw [if_neg hok]
  refine ⟨h, ?_, ?_⟩
  · intro s
    rw [h, writesTo_map]
  · rw [h, warnCount_map]

/-- Witness for claim C7: a small event with surfacers ["s1", "s2"] is
written once to "s1" and once to "s2", with no warning. -/
theorem claim_C7_witness :
    dataLoopStep 10 ["s1", "s2"] ⟨7, "ab"⟩ =
      [.write "s1" ⟨7, "ab"⟩, .write "s2" ⟨7, "ab"⟩] ∧
    writesTo "s1" ⟨7, "ab"⟩ (dataLoopStep 10 ["s1", "s2"] ⟨7, "ab"⟩) = 1 ∧
    warnCount (dataLoopStep 10 ["s1", "s2"] ⟨7, "ab"⟩) = 0 := by
  have h := claim_C7 10 ["s1", "s2"] ⟨7, "ab"⟩ (by decide)
  exact ⟨h.1, by rw [h.2.1 "s1"]; rfl, h.2.2⟩

/-- Claim C8: `StopAllProbes` is idempotent — a second call in
succession leaves the registry and cancel-handle state exactly as the
first left them, invokes no cancel function, and its individual stops
produce no error: its log is exactly the per-name "not started" no-op
info line for each registered probe. -/
theorem claim_C8 (st : ProberState) :
    (StopAllProbes (StopAllProbes st).1).1 = (StopAllProbes st).1 ∧
    (StopAllProbes (StopAllProbes st).1).2 =
      (st.probes.map Prod.fst).map LogEvent.infoNotStarted := by
  have hpr : (StopAllProbes st).1.probes = st.probes := stopList_probes _ _
  have hc : ∀ n ∈ (StopAllProbes st).1.probes.map Prod.fst,
      lookupKey n (StopAllProbes st).1.cancels = none := by
    intro n hn
    rw [hpr] at hn
    show lookupKey n (stopList (st.probes.map Prod.fst) st).1.cancels = none
    rw [stopList_cancels, if_pos hn]
  have hp : ∀ n ∈ (StopAllProbes st).1.probes.map Prod.fst,
      (lookupKey n (StopAllProbes st).1.probes).isSome = true := by
    intro n hn
    exact lookupKey_isSome_of_mem _ n hn
  have h := stopList_noop ((StopAllProbes st).1.probes.map Prod.fst) (StopAllProbes st).1 hc hp
  constructor
  · show (stopList ((StopAllProbes st).1.probes.map Prod.fst) (StopAllProbes st).1).1 =
      (StopAllProbes st).1
    rw [h]
  · show (stopList ((StopAllProbes st).1.probes.map Prod.fst) (StopAllProbes st).1).2 = _
    rw [h, hpr]

/-- Claim C9: starting an already-running probe again replaces its
stored cancel handle with a fresh one without invoking the old one —
after the restart the map holds the fresh token, nothing new has been
invoked, and a subsequent `StopProbe` invokes only the fresh token, so
the earlier run's cancel function `t` is never invoked and can no
longer be reached through `StopProbe`. -/
theorem claim_C9 (st : ProberState) (n : String) (t : Nat)
    (hrun : lookupKey n st.cancels = some t) (hninv : t ∉ st.invoked)
    (hfresh : t < st.nextToken) :
    lookupKey n (startProbeWithNoLock st n).cancels = some st.nextToken ∧
    st.nextToken ≠ t ∧
    (startProbeWithNoLock st n).invoked = st.invoked ∧
    t ∉ (stopProbeWithNoLock (startProbeWithNoLock st n) n).1.invoked ∧
    lookupKey n (stopProbeWithNoLock (startProbeWithNoLock st n) n).1.cancels = none := by
  have hstart : lookupKey n (startProbeWithNoLock st n).cancels = some st.nextToken := by
    rw [start_cancels, if_pos rfl]
  have hne : st.nextToken ≠ t := Nat.ne_of_gt hfresh
  refine ⟨hstart, hne, rfl, ?_, ?_⟩
  · have hinv : (stopProbeWithNoLock (startProbeWithNoLock st n) n).1.invoked =
        st.invoked ++ [st.nextToken] := by
      simp [stopProbeWithNoLock, hstart, start_invoked]
    rw [hinv]
    simp only [List.mem_append, List.mem_singleton]
    rintro (h | h)
    · exact hninv h
    · exact hne h.symm
  · rw [stop_cancels, if_pos rfl]

/-- A state with the registered probe "p" currently running under cancel
token 0. -/
def stRun : ProberState :=
  { probes := [("p", ⟨"p", tenSec⟩)], cancels := [("p", 0)], nextToken := 1, invoked := [] }

/-- Witness for claim C9: probe "p" registered and running with cancel
token 0; restarting it stores token 1, invokes nothing, and the
subsequent stop invokes only token 1. -/
theorem claim_C9_witness :
    lookupKey "p" (startProbeWithNoLock stRun "p").cancels = some 1 ∧
    (1 : Nat) ≠ 0 ∧
    (startProbeWithNoLock stRun "p").invoked = [] ∧
    (0 : Nat) ∉ (stopProbeWithNoLock (startProbeWithNoLock stRun "p") "p").1.invoked ∧
    lookupKey "p" (stopProbeWithNoLock (startProbeWithNoLock stRun "p") "p").1.cancels =
      none :=
  claim_C9 stRun "p" 0 rfl (by decide) (by decide)

end Prober
